import Mathlib

/-!
Shallow embedding of the run-detection, deduplication and action-dispatch
engine of src/github_actions_monitor.py (class GitHubActionsMonitor), together
with theorems settling the frozen claims about it.

Python dicts are modelled as association lists (first binding wins, mirroring
unique-key dicts), Python sets of strings as lists whose membership is the set
membership, datetimes as integer UTC seconds, and the external effects of
subprocess.run as an oracle value enumerating the outcomes the code handles.
-/

namespace GhaMonitor

/-- Association-list lookup, modelling a Python dict access d[k] / k in d. -/
def lookupA {α : Type} (m : List (String × α)) (k : String) : Option α :=
  match m with
  | [] => none
  | (k', v) :: rest => if k' = k then some v else lookupA rest k

/-- Split a list of characters at every occurrence of the separator,
modelling Python str.split(sep) for a one-character separator. -/
def splitOnChar (c : Char) : List Char → List (List Char)
  | [] => [[]]
  | x :: xs =>
    if x = c then [] :: splitOnChar c xs
    else match splitOnChar c xs with
      | [] => [[x]]
      | p :: ps => (x :: p) :: ps

/-- Python run_key.split(sep) on strings. -/
def pySplit (sep : Char) (s : String) : List String :=
  (splitOnChar sep s.data).map String.mk

/-- Digit-string value, none when the list is empty or has a non-digit. -/
def digitsToNat (l : List Char) : Option Nat :=
  match l with
  | [] => none
  | _ => l.foldl (fun acc c =>
      match acc with
      | none => none
      | some n => if c.isDigit then some (n * 10 + (c.toNat - 48)) else none)
      (some 0)

/-- Python int(s) on decimal strings: some value, or none where int() raises. -/
def pyToInt? (s : String) : Option Int :=
  match s.data with
  | '-' :: rest => (digitsToNat rest).map (fun n => -(n : Int))
  | l => (digitsToNat l).map (fun n => (n : Int))

/-- Membership of needle as a contiguous infix of hay, modelling
Python `kw in command_lower`. -/
def isInfixL (needle hay : List Char) : Bool :=
  match hay with
  | [] => needle.isPrefixOf ([] : List Char)
  | _ :: xs => needle.isPrefixOf hay || isInfixL needle xs

/-- One monitored workflow (fields of the PyGithub Workflow object the
core reads). -/
structure Workflow where
  id : Int
  name : String
deriving DecidableEq

/-- One completed workflow run (fields of the PyGithub WorkflowRun object the
core reads); updatedAt is UTC seconds, none when the run has no timestamp. -/
structure Run where
  id : Int
  runNumber : Int
  conclusion : Option String
  headBranch : Option String
  updatedAt : Option Int
deriving DecidableEq

/-- The f-string run key of a run: repo_name:workflow.id:run.id. -/
def runKey (repoName : String) (wfId runId : Int) : String :=
  repoName ++ ":" ++ toString wfId ++ ":" ++ toString runId

/-- GitHubActionsMonitor._should_monitor_branch: empty configured list means
every branch is monitored; a run with no branch fails a nonempty check. -/
def shouldMonitorBranch (branchesConfig : List String) (branch : Option String) : Bool :=
  if branchesConfig.isEmpty then true
  else match branch with
    | some b => branchesConfig.elem b
    | none => false

/-- GitHubActionsMonitor._get_new_successful_runs: keep the completed runs
whose conclusion is success, whose run key is not in executed_runs, whose
branch is monitored and which are at most 300 seconds old (a run without
updated_at skips the age check). -/
def getNewSuccessfulRuns (repoName : String) (wf : Workflow) (runs : List Run)
    (now : Int) (executed : List String) (branchesConfig : List String) : List Run :=
  (runs.filter (fun r => r.conclusion == some "success")).filter (fun r =>
    !(executed.elem (runKey repoName wf.id r.id)) &&
    shouldMonitorBranch branchesConfig r.headBranch &&
    (match r.updatedAt with
     | some t => !(decide (now - t > 300))
     | none => true))

/-- One command definition dict (fields _execute_commands reads). -/
structure CommandConfig where
  name : Option String
  description : Option String
  command : Option String
  workingDirectory : Option String
  timeout : Option Int
deriving DecidableEq

/-- commands.execution_map: repository pattern to branch pattern to list of
command names. -/
abbrev ExecutionMap := List (String × List (String × List String))

/-- The commands section of the configuration. -/
structure CommandsConfig where
  executionMap : ExecutionMap
  definitions : List (String × CommandConfig)
  onSuccess : List CommandConfig
deriving DecidableEq

/-- Keyword membership in the lowercased command text. -/
def containsKeyword (commandLower : List Char) (kw : String) : Bool :=
  isInfixL kw.data commandLower

/-- GitHubActionsMonitor._get_default_timeout. -/
def getDefaultTimeout (command : String) : Int :=
  let c := command.data.map Char.toLower
  if containsKeyword c "curl" || containsKeyword c "wget" || containsKeyword c "http" then 60
  else if containsKeyword c "kubectl" then 120
  else if containsKeyword c "git" || containsKeyword c "clone" ||
          containsKeyword c "pull" || containsKeyword c "push" then 180
  else if containsKeyword c "docker" || containsKeyword c "podman" then 300
  else 120

/-- The timeout used for one command: cmd_config.get('timeout',
self._get_default_timeout(command)). -/
def effectiveTimeout (cmd : CommandConfig) : Int :=
  cmd.timeout.getD (getDefaultTimeout (cmd.command.getD ""))

/-- The repo-level block of _execute_commands (lines 467-473): repo_commands
after the first if-statement, none when repo_name is absent or its config has
neither the branch nor the star key. -/
def resolveStep1 (execMap : ExecutionMap) (repoName branchName : String) :
    Option (List String) :=
  match lookupA execMap repoName with
  | none => none
  | some repoConfig =>
    match lookupA repoConfig branchName with
    | some cmds => some cmds
    | none => lookupA repoConfig "*"

/-- Python truthiness of repo_commands: None and the empty list are falsy. -/
def isTruthyList : Option (List String) → Bool
  | some l => !l.isEmpty
  | none => false

/-- The value of repo_commands after both blocks of _execute_commands
(lines 466-481), including the falsy-guarded fallback to the star entry. -/
def resolveRepoCommands (execMap : ExecutionMap) (repoName branchName : String) :
    Option (List String) :=
  let rc := resolveStep1 execMap repoName branchName
  if isTruthyList rc then rc
  else
    match lookupA execMap "*" with
    | none => rc
    | some defaultConfig =>
      match lookupA defaultConfig branchName with
      | some cmds => some cmds
      | none =>
        match lookupA defaultConfig "*" with
        | some cmds => some cmds
        | none => rc

/-- Name-to-definition conversion (lines 484-491): an unresolvable name is
skipped; a resolved definition is copied with its name filled in. -/
def resolveCommandDefs (defs : List (String × CommandConfig)) (names : List String) :
    List CommandConfig :=
  names.filterMap (fun n => (lookupA defs n).map (fun d => { d with name := some n }))

/-- commands_to_execute as computed by _execute_commands: the execution map
when nonempty (with falsy repo_commands giving no commands), else the legacy
on_success list. -/
def commandsToExecute (cfg : CommandsConfig) (repoName branchName : String) :
    List CommandConfig :=
  if !cfg.executionMap.isEmpty then
    let rc := resolveRepoCommands cfg.executionMap repoName branchName
    if isTruthyList rc then resolveCommandDefs cfg.definitions (rc.getD []) else []
  else cfg.onSuccess

/-- The outcomes subprocess.run can have inside _execute_single_command, one
constructor per handled exception class plus normal completion. -/
inductive ExecBehavior where
  | completed (returncode : Int) (stdout stderr : String)
  | timedOut (partialStdout partialStderr : Option String)
  | permissionError
  | fileNotFoundError
  | unexpectedError
deriving DecidableEq

/-- The non-None values _execute_single_command can return: a
subprocess.CompletedProcess, or the ad hoc TimeoutResult object. -/
inductive CmdResult where
  | proc (returncode : Int) (stdout stderr : String)
  | timeoutResult (returncode : Int) (stdout stderr : String)
deriving DecidableEq

/-- GitHubActionsMonitor._execute_single_command (lines 670-793): the value
returned to the caller for each behavior of subprocess.run; the three handled
error classes all return None. -/
def executeSingleCommand (behavior : ExecBehavior) (timeout : Int) : Option CmdResult :=
  match behavior with
  | .completed rc out err => some (.proc rc out err)
  | .timedOut pout _ =>
      some (.timeoutResult (-1) (pout.getD "")
        ("Command timed out after " ++ toString timeout ++ " seconds"))
  | .permissionError => none
  | .fileNotFoundError => none
  | .unexpectedError => none

/-- The per-command success test of _execute_commands (line 534):
result is truthy and result.returncode == 0. -/
def resultIsSuccess : Option CmdResult → Bool
  | some (.proc rc _ _) => rc == 0
  | some (.timeoutResult rc _ _) => rc == 0
  | none => false

/-- One iteration of the command loop of _execute_commands (lines 513-543):
an empty command text is skipped (continue at line 524); otherwise the
command is invoked and commands_executed is or-ed with the success of the
result. The accumulator is (commands_executed, commands invoked so far). -/
def commandStep (oracle : String → ExecBehavior) (acc : Bool × List String)
    (cmd : CommandConfig) : Bool × List String :=
  let command := cmd.command.getD ""
  if command = "" then acc
  else
    let result := executeSingleCommand (oracle command) (effectiveTimeout cmd)
    (acc.1 || resultIsSuccess result, acc.2 ++ [command])

/-- The whole command loop of _execute_commands. -/
def runCommandList (oracle : String → ExecBehavior) (cmds : List CommandConfig) :
    Bool × List String :=
  cmds.foldl (commandStep oracle) (false, [])

/-- Whether one command of the loop would set commands_executed: its text is
nonempty and its invocation result is truthy with returncode 0. -/
def commandSucceeds (oracle : String → ExecBehavior) (cmd : CommandConfig) : Bool :=
  if cmd.command.getD "" = "" then false
  else resultIsSuccess (executeSingleCommand (oracle (cmd.command.getD ""))
    (effectiveTimeout cmd))

/-- GitHubActionsMonitor._execute_commands: resolves the commands for the run,
returns unchanged state when none resolve (early return at line 497), else
runs them and adds the run key to executed_runs exactly when
commands_executed (the second disjunct of line 546 is kept although it is
unreachable past the early return). Also returns the (run key, command)
invocation log. -/
def executeCommands (cfg : CommandsConfig) (oracle : String → ExecBehavior)
    (repoName : String) (wf : Workflow) (run : Run) (executed : List String) :
    List String × List (String × String) :=
  let branchName := (run.headBranch).getD "unknown"
  let cmds := commandsToExecute cfg repoName branchName
  if cmds.isEmpty then (executed, [])
  else
    let key := runKey repoName wf.id run.id
    let outcome := runCommandList oracle cmds
    let executedAfter :=
      if outcome.1 || cmds.isEmpty then
        if executed.elem key then executed else executed ++ [key]
      else executed
    (executedAfter, outcome.2.map (fun c => (key, c)))

/-- One iteration of the dispatch loop of _monitor_workflows: execute the
commands for one detected run against the threaded state, appending to the
invocation log. -/
def dispatchStep (cfg : CommandsConfig) (oracle : String → ExecBehavior)
    (repoName : String) (wf : Workflow)
    (acc : List String × List (String × String)) (run : Run) :
    List String × List (String × String) :=
  let step := executeCommands cfg oracle repoName wf run acc.1
  (step.1, acc.2 ++ step.2)

/-- The per-workflow detection plus dispatch loop of _monitor_workflows
(lines 938-954): detect the new successful runs against the current state,
then execute commands for each in order, threading executed_runs. Returns the
final executed_runs and the concatenated invocation log. -/
def processWorkflow (cfg : CommandsConfig) (oracle : String → ExecBehavior)
    (repoName : String) (wf : Workflow) (runs : List Run) (now : Int)
    (branchesConfig : List String) (executed : List String) :
    List String × List (String × String) :=
  let newRuns := getNewSuccessfulRuns repoName wf runs now executed branchesConfig
  newRuns.foldl (dispatchStep cfg oracle repoName wf) (executed, [])

/-- The run data retention re-queries from the Run Source
(repo.get_workflow_run(run_id).updated_at). -/
structure RunInfo where
  updatedAt : Option Int
deriving DecidableEq

/-- The per-key removal decision of _cleanup_old_executed_runs (lines
880-903): a key splitting into at least three parts whose id fields parse as
integers is checked against the re-queried run when its repository is
connected (age strictly over 604800 seconds, or a failed fetch, removes it);
an integer parse failure removes the key; a key with fewer than three parts
falls through unremoved. The source is none where get_workflow_run raises. -/
def keyShouldRemove (repos : List String) (source : String → Int → Option RunInfo)
    (now : Int) (key : String) : Bool :=
  let parts := pySplit ':' key
  if parts.length ≥ 3 then
    match pyToInt? (parts.getD 1 ""), pyToInt? (parts.getD 2 "") with
    | some _, some runId =>
      if repos.elem (parts.getD 0 "") then
        match source (parts.getD 0 "") runId with
        | some info =>
          match info.updatedAt with
          | some t => decide (now - t > 604800)
          | none => false
        | none => true
      else false
    | _, _ => true
  else false

/-- GitHubActionsMonitor._cleanup_old_executed_runs: executed_runs minus the
keys collected for removal. -/
def cleanupOldExecutedRuns (repos : List String) (source : String → Int → Option RunInfo)
    (now : Int) (executed : List String) : List String :=
  executed.filter (fun key => !(keyShouldRemove repos source now key))

/-- The in-memory dedup state: last_checked_runs and the executed_runs set,
the list recording the set's iteration order. -/
structure DedupState where
  lastCheckedRuns : List (String × Int)
  executedRuns : List String
deriving DecidableEq

/-- The JSON-shaped file contents, executed_runs serialized as an array. -/
structure SavedState where
  lastCheckedRuns : List (String × Int)
  executedRuns : List String
deriving DecidableEq

/-- GitHubActionsMonitor._save_state: copy the state with the executed set
converted to a list for JSON serialization. -/
def saveState (s : DedupState) : SavedState :=
  ⟨s.lastCheckedRuns, s.executedRuns⟩

/-- GitHubActionsMonitor._load_state: re-hydrate the executed_runs array into
a set (set(list) collapses duplicates). -/
def loadState (f : SavedState) : DedupState :=
  ⟨f.lastCheckedRuns, f.executedRuns.dedup⟩

/-! Concrete fixtures used by the boundary instances, counterexamples and
witnesses below. -/

/-- A sample monitored workflow with id 7. -/
def wfSample : Workflow := ⟨7, "CI"⟩

/-- A successful run with id 42 on branch main, completed at the given time. -/
def runSuccessAt (t : Option Int) : Run := ⟨42, 5, some "success", some "main", t⟩

/-- The execution map of the spec's resolution-precedence example. -/
def exMapSpec : ExecutionMap := [("org/repo", [("main", ["a"])]), ("*", [("*", ["b"])])]

/-- An execution map whose exact (repository, branch) entry is empty while a
wildcard entry exists. -/
def exMapEmptyMain : ExecutionMap := [("org/repo", [("main", [])]), ("*", [("*", ["b"])])]

/-- An execution map with an empty exact entry for acme/api on dev and a
global wildcard. -/
def exMapEmptyDev : ExecutionMap := [("acme/api", [("dev", [])]), ("*", [("*", ["x"])])]

/-- A command definition table defining the single name x. -/
def defsX : List (String × CommandConfig) :=
  [("x", ⟨none, some "restart", some "systemctl restart app", none, none⟩)]

/-- A commands configuration whose execution map has an entry only for
repository r on branch main. -/
def cfgRMain : CommandsConfig :=
  ⟨[("r", [("main", ["a"])])], [("a", ⟨none, none, some "echo hi", none, none⟩)], []⟩

/-- An oracle under which every command completes with exit code 0. -/
def oracleAllOk : String → ExecBehavior := fun _ => .completed 0 "" ""

/-- A run source whose every run exists with update time 0. -/
def srcAllEpoch : String → Int → Option RunInfo := fun _ _ => some ⟨some 0⟩

/-- Whether the lowercased command text has any of the given keywords,
the membership test _get_default_timeout applies per category. -/
def hasAnyKeyword (command : String) (kws : List String) : Bool :=
  kws.any (fun kw => containsKeyword (command.data.map Char.toLower) kw)

/-! Helper lemmas. -/

/-- The branch gate in spec terms: allowed iff the allow-list is empty or the
run's branch is a member of it. -/
theorem shouldMonitorBranch_iff (bc : List String) (br : Option String) :
    shouldMonitorBranch bc br = true ↔
      bc = [] ∨ ∃ b, br = some b ∧ b ∈ bc := by
  unfold shouldMonitorBranch
  cases br with
  | none =>
    by_cases h : bc = [] <;> simp [h]
  | some b =>
    by_cases h : bc = [] <;> simp [h, List.elem_iff]

/-- Membership characterization of the freshness filter. -/
theorem mem_getNewSuccessfulRuns (repoName : String) (wf : Workflow) (runs : List Run)
    (now : Int) (executed : List String) (bc : List String) (r : Run) :
    r ∈ getNewSuccessfulRuns repoName wf runs now executed bc ↔
      r ∈ runs ∧ r.conclusion = some "success" ∧
      runKey repoName wf.id r.id ∉ executed ∧
      shouldMonitorBranch bc r.headBranch = true ∧
      (∀ t, r.updatedAt = some t → now - t ≤ 300) := by
  constructor
  · intro h
    simp only [getNewSuccessfulRuns, List.mem_filter, Bool.and_eq_true, beq_iff_eq,
      Bool.not_eq_true'] at h
    obtain ⟨⟨hr, hc⟩, ⟨hk, hb⟩, ha⟩ := h
    refine ⟨hr, hc, ?_, hb, ?_⟩
    · intro hmem
      rw [List.elem_iff.mpr hmem] at hk
      exact Bool.noConfusion hk
    · intro t ht
      rw [ht] at ha
      simpa using ha
  · rintro ⟨hr, hc, hk, hb, ha⟩
    simp only [getNewSuccessfulRuns, List.mem_filter, Bool.and_eq_true, beq_iff_eq,
      Bool.not_eq_true']
    refine ⟨⟨hr, hc⟩, ⟨?_, hb⟩, ?_⟩
    · simpa using hk
    · cases hu : r.updatedAt with
      | none => simp
      | some t => simpa using ha t hu

/-- One dispatch never removes a key from executed_runs. -/
theorem executeCommands_mono (cfg : CommandsConfig) (oracle : String → ExecBehavior)
    (repoName : String) (wf : Workflow) (run : Run) (executed : List String)
    (k : String) (h : k ∈ executed) :
    k ∈ (executeCommands cfg oracle repoName wf run executed).1 := by
  unfold executeCommands
  by_cases he : (commandsToExecute cfg repoName ((run.headBranch).getD "unknown")).isEmpty
  · simp [he, h]
  · by_cases ho :
      (runCommandList oracle
        (commandsToExecute cfg repoName ((run.headBranch).getD "unknown"))).1
    · by_cases hk : runKey repoName wf.id run.id ∈ executed
      · simp [he, ho, hk, h]
      · simp [he, ho, hk, h]
    · simp [he, ho, h]

/-- Every entry of one dispatch's invocation log carries that run's key. -/
theorem executeCommands_log_key (cfg : CommandsConfig) (oracle : String → ExecBehavior)
    (repoName : String) (wf : Workflow) (run : Run) (executed : List String)
    (k c : String)
    (h : (k, c) ∈ (executeCommands cfg oracle repoName wf run executed).2) :
    k = runKey repoName wf.id run.id := by
  unfold executeCommands at h
  by_cases he : (commandsToExecute cfg repoName ((run.headBranch).getD "unknown")).isEmpty
  · simp [he] at h
  · simp only [he, Bool.false_eq_true, if_false, List.mem_map] at h
    obtain ⟨c', _, hpair⟩ := h
    exact (Prod.mk.injEq _ _ _ _ ▸ hpair).1.symm

/-- Keys in the threaded state survive the whole dispatch loop. -/
theorem dispatchFold_mono (cfg : CommandsConfig) (oracle : String → ExecBehavior)
    (repoName : String) (wf : Workflow) :
    ∀ (l : List Run) (p : List String × List (String × String)) (k : String),
      k ∈ p.1 → k ∈ (l.foldl (dispatchStep cfg oracle repoName wf) p).1 := by
  intro l
  induction l with
  | nil => intro p k h; simpa using h
  | cons r rest ih =>
    intro p k h
    rw [List.foldl_cons]
    exact ih _ k (executeCommands_mono cfg oracle repoName wf r p.1 k h)

/-- Every invocation logged by the dispatch loop either was already in the
accumulator or carries the key of one of the dispatched runs. -/
theorem dispatchFold_log (cfg : CommandsConfig) (oracle : String → ExecBehavior)
    (repoName : String) (wf : Workflow) :
    ∀ (l : List Run) (p : List String × List (String × String)) (k c : String),
      (k, c) ∈ (l.foldl (dispatchStep cfg oracle repoName wf) p).2 →
      (k, c) ∈ p.2 ∨ ∃ r ∈ l, k = runKey repoName wf.id r.id := by
  intro l
  induction l with
  | nil => intro p k c h; exact Or.inl (by simpa using h)
  | cons r rest ih =>
    intro p k c h
    rw [List.foldl_cons] at h
    rcases ih _ k c h with h0 | ⟨r', hr', hk'⟩
    · have h1 : (k, c) ∈ p.2 ∨ (k, c) ∈ (executeCommands cfg oracle repoName wf r p.1).2 := by
        simpa [dispatchStep] using h0
      rcases h1 with h2 | h2
      · exact Or.inl h2
      · exact Or.inr ⟨r, List.mem_cons_self r rest,
          executeCommands_log_key cfg oracle repoName wf r p.1 k c h2⟩
    · exact Or.inr ⟨r', List.mem_cons_of_mem r hr', hk'⟩

/-- The success flag accumulated by the command loop, as an any-fold. -/
theorem runCommandList_foldl_fst (oracle : String → ExecBehavior) :
    ∀ (cmds : List CommandConfig) (p : Bool × List String),
      (cmds.foldl (commandStep oracle) p).1 =
        (p.1 || cmds.any (commandSucceeds oracle)) := by
  intro cmds
  induction cmds with
  | nil => intro p; simp
  | cons cmd rest ih =>
    intro p
    rw [List.foldl_cons, ih]
    by_cases hc : cmd.command.getD "" = ""
    · simp [commandStep, commandSucceeds, hc]
    · simp [commandStep, commandSucceeds, hc, Bool.or_assoc]

/-- commands_executed is true iff some nonempty configured command succeeded. -/
theorem runCommandList_fst_iff (oracle : String → ExecBehavior)
    (cmds : List CommandConfig) :
    (runCommandList oracle cmds).1 = true ↔
      ∃ cmd ∈ cmds, cmd.command.getD "" ≠ "" ∧
        resultIsSuccess (executeSingleCommand (oracle (cmd.command.getD ""))
          (effectiveTimeout cmd)) = true := by
  unfold runCommandList
  rw [runCommandList_foldl_fst]
  simp only [Bool.false_or, List.any_eq_true]
  constructor
  · rintro ⟨cmd, hmem, hs⟩
    by_cases hc : cmd.command.getD "" = ""
    · simp [commandSucceeds, hc] at hs
    · exact ⟨cmd, hmem, hc, by simpa [commandSucceeds, hc] using hs⟩
  · rintro ⟨cmd, hmem, hc, hs⟩
    exact ⟨cmd, hmem, by simpa [commandSucceeds, hc] using hs⟩

/-- A successful lookup needs a nonempty dict. -/
theorem lookupA_isEmpty_false {α : Type} (m : List (String × α)) (k : String) (v : α)
    (h : lookupA m k = some v) : m.isEmpty = false := by
  cases m with
  | nil => simp [lookupA] at h
  | cons a l => rfl

/-- Membership after the retention pass: still present and not collected for
removal. -/
theorem mem_cleanup_iff (repos : List String) (source : String → Int → Option RunInfo)
    (now : Int) (executed : List String) (key : String) :
    key ∈ cleanupOldExecutedRuns repos source now executed ↔
      key ∈ executed ∧ keyShouldRemove repos source now key = false := by
  unfold cleanupOldExecutedRuns
  simp [List.mem_filter]

/-- The removal decision under a successful three-part split of the key. -/
theorem keyShouldRemove_parsed (repos : List String) (source : String → Int → Option RunInfo)
    (now : Int) (key repoName wfS runS : String) (rest : List String)
    (hsplit : pySplit ':' key = repoName :: wfS :: runS :: rest) :
    keyShouldRemove repos source now key =
      (match pyToInt? wfS, pyToInt? runS with
       | some _, some rid =>
         if repos.elem repoName then
           match source repoName rid with
           | some info =>
             match info.updatedAt with
             | some t => decide (now - t > 604800)
             | none => false
           | none => true
         else false
       | _, _ => true) := by
  unfold keyShouldRemove
  rw [hsplit]
  have hlen : (repoName :: wfS :: runS :: rest).length ≥ 3 := by
    simp [List.length_cons]
  simp [hlen, List.getD]

/-! Claim theorems. -/

/-- C1: at-most-once dispatch. Once a run's key is in executed_runs, the
detection path excludes the run, a further detection-plus-dispatch pass over
the same state logs no command invocation for that key, and the key stays in
the executed set afterwards. -/
theorem at_most_once_dispatch (cfg : CommandsConfig) (oracle : String → ExecBehavior)
    (repoName : String) (wf : Workflow) (runs : List Run) (now : Int)
    (branchesConfig executed : List String) (run : Run)
    (h : runKey repoName wf.id run.id ∈ executed) :
    run ∉ getNewSuccessfulRuns repoName wf runs now executed branchesConfig ∧
    (∀ c, (runKey repoName wf.id run.id, c) ∉
        (processWorkflow cfg oracle repoName wf runs now branchesConfig executed).2) ∧
    runKey repoName wf.id run.id ∈
      (processWorkflow cfg oracle repoName wf runs now branchesConfig executed).1 := by
  refine ⟨?_, ?_, ?_⟩
  · intro hmem
    exact ((mem_getNewSuccessfulRuns repoName wf runs now executed branchesConfig
      run).mp hmem).2.2.1 h
  · intro c hlog
    unfold processWorkflow at hlog
    rcases dispatchFold_log cfg oracle repoName wf _ _ _ _ hlog with h0 | ⟨r, hr, hkey⟩
    · simp at h0
    · have hnot := ((mem_getNewSuccessfulRuns repoName wf runs now executed
        branchesConfig r).mp hr).2.2.1
      rw [hkey] at h
      exact hnot h
  · unfold processWorkflow
    exact dispatchFold_mono cfg oracle repoName wf _ (executed, []) _ h

/-- C1 witness: with the key of the sample run already executed, a concrete
detection-plus-dispatch pass detects nothing for it, logs nothing, and keeps
the key. -/
theorem at_most_once_dispatch_witness :
    runSuccessAt (some 0) ∉
      getNewSuccessfulRuns "acme/api" wfSample [runSuccessAt (some 0)] 0
        [runKey "acme/api" 7 42] [] ∧
    (∀ c, (runKey "acme/api" 7 42, c) ∉
        (processWorkflow cfgRMain oracleAllOk "acme/api" wfSample
          [runSuccessAt (some 0)] 0 [] [runKey "acme/api" 7 42]).2) ∧
    runKey "acme/api" 7 42 ∈
      (processWorkflow cfgRMain oracleAllOk "acme/api" wfSample
        [runSuccessAt (some 0)] 0 [] [runKey "acme/api" 7 42]).1 := by
  have h := at_most_once_dispatch cfgRMain oracleAllOk "acme/api" wfSample
    [runSuccessAt (some 0)] 0 [] [runKey "acme/api" 7 42] (runSuccessAt (some 0))
    (List.mem_singleton.mpr rfl)
  exact h

/-- C2 counterexample: a run to which zero commands resolve is not marked
executed. The claim says the no-op case counts as handled and is marked, but
_execute_commands returns at line 499 before the marking step, so the
executed set stays empty. -/
theorem noop_run_not_marked_counterexample :
    commandsToExecute cfgRMain "other" "dev" = [] ∧
    (executeCommands cfgRMain oracleAllOk "other" wfSample
       ⟨42, 5, some "success", some "dev", some 0⟩ []).1 = [] ∧
    runKey "other" 7 42 ∉
      (executeCommands cfgRMain oracleAllOk "other" wfSample
        ⟨42, 5, some "success", some "dev", some 0⟩ []).1 := by
  decide

/-- C2 amended: after dispatching one run, its key is in the executed set iff
it already was, or at least one resolved command with nonempty text completed
with exit code 0; when zero commands resolve (the no-op case included, and so
the case where every configured name was unresolvable) the dispatch returns
with the state unchanged and the run is not marked. -/
theorem marking_requires_success (cfg : CommandsConfig) (oracle : String → ExecBehavior)
    (repoName : String) (wf : Workflow) (run : Run) (executed : List String) :
    (commandsToExecute cfg repoName ((run.headBranch).getD "unknown") = [] →
       executeCommands cfg oracle repoName wf run executed = (executed, [])) ∧
    (runKey repoName wf.id run.id ∈ (executeCommands cfg oracle repoName wf run executed).1 ↔
       runKey repoName wf.id run.id ∈ executed ∨
         ∃ cmd ∈ commandsToExecute cfg repoName ((run.headBranch).getD "unknown"),
           cmd.command.getD "" ≠ "" ∧
           resultIsSuccess (executeSingleCommand (oracle (cmd.command.getD ""))
             (effectiveTimeout cmd)) = true) := by
  constructor
  · intro he
    unfold executeCommands
    simp [he]
  · rw [← runCommandList_fst_iff]
    unfold executeCommands
    by_cases he : (commandsToExecute cfg repoName ((run.headBranch).getD "unknown")).isEmpty
    · have he' : commandsToExecute cfg repoName ((run.headBranch).getD "unknown") = [] :=
        List.isEmpty_iff.mp he
      rw [he']
      simp [he, runCommandList]
    · by_cases ho :
        (runCommandList oracle
          (commandsToExecute cfg repoName ((run.headBranch).getD "unknown"))).1
      · by_cases hk : runKey repoName wf.id run.id ∈ executed
        · simp [he, ho, hk]
        · simp [he, ho, hk]
      · simp [he, ho]

/-- C2 witness: a successfully completing resolved command marks the sample
run's key. -/
theorem marking_requires_success_witness :
    runKey "r" 7 42 ∈
      (executeCommands cfgRMain oracleAllOk "r" wfSample (runSuccessAt (some 0)) []).1 :=
  (marking_requires_success cfgRMain oracleAllOk "r" wfSample
      (runSuccessAt (some 0)) []).2.mpr
    (Or.inr ⟨⟨some "a", none, some "echo hi", none, none⟩, by decide, by decide, by decide⟩)

/-- C3: the freshness filter keeps a completed run iff its conclusion is
success, its run key is not in the executed set, its branch is in the
allow-list (an empty allow-list allowing all branches), and now minus its
update timestamp is at most 300 seconds; the boundary is inclusive (a run
299 seconds old is eligible, one 301 seconds old is not), and a run lacking
an update timestamp passes the age check (fail open) while remaining subject
to the dedup and branch checks. -/
theorem freshness_filter_spec :
    (∀ (repoName : String) (wf : Workflow) (runs : List Run) (now : Int)
       (executed bc : List String) (r : Run),
       r ∈ getNewSuccessfulRuns repoName wf runs now executed bc ↔
         r ∈ runs ∧ r.conclusion = some "success" ∧
         runKey repoName wf.id r.id ∉ executed ∧
         (bc = [] ∨ ∃ b, r.headBranch = some b ∧ b ∈ bc) ∧
         (∀ t, r.updatedAt = some t → now - t ≤ 300)) ∧
    runSuccessAt (some 0) ∈
      getNewSuccessfulRuns "acme/api" wfSample [runSuccessAt (some 0)] 299 [] [] ∧
    runSuccessAt (some 0) ∈
      getNewSuccessfulRuns "acme/api" wfSample [runSuccessAt (some 0)] 300 [] [] ∧
    runSuccessAt (some 0) ∉
      getNewSuccessfulRuns "acme/api" wfSample [runSuccessAt (some 0)] 301 [] [] ∧
    runSuccessAt none ∈
      getNewSuccessfulRuns "acme/api" wfSample [runSuccessAt none] 999999 [] [] ∧
    runSuccessAt none ∉
      getNewSuccessfulRuns "acme/api" wfSample [runSuccessAt none] 999999
        [runKey "acme/api" 7 42] [] := by
  refine ⟨?_, by decide, by decide, by decide, by decide, by decide⟩
  intro repoName wf runs now executed bc r
  rw [mem_getNewSuccessfulRuns, shouldMonitorBranch_iff]

/-- C4 counterexample: with an empty exact entry for (org/repo, main) and a
global wildcard, the first matching entry is the empty list, yet resolution
returns the wildcard's commands — the first match does not win. -/
theorem resolution_first_match_counterexample :
    (lookupA exMapEmptyMain "org/repo").bind (fun rc => lookupA rc "main") = some [] ∧
    resolveRepoCommands exMapEmptyMain "org/repo" "main" = some ["b"] ∧
    resolveRepoCommands exMapEmptyMain "org/repo" "main" ≠ some [] := by
  decide

/-- C4 amended: resolution tries ExecutionMap[repository][branch], then
ExecutionMap[repository][star] (key presence deciding inside the repository
level), and keeps that result when it is nonempty; a missing or empty
repository-level result falls through to ExecutionMap[star][branch], then
ExecutionMap[star][star], where the first key match wins outright. The
spec's three example resolutions hold as stated. -/
theorem resolution_precedence_amended :
    (∀ (m : ExecutionMap) (r b : String) (rc : List (String × List String))
       (cmds : List String),
       lookupA m r = some rc → lookupA rc b = some cmds → cmds ≠ [] →
       resolveRepoCommands m r b = some cmds) ∧
    (∀ (m : ExecutionMap) (r b : String) (rc : List (String × List String))
       (cmds : List String),
       lookupA m r = some rc → lookupA rc b = none → lookupA rc "*" = some cmds →
       cmds ≠ [] → resolveRepoCommands m r b = some cmds) ∧
    (∀ (m : ExecutionMap) (r b : String) (dc : List (String × List String))
       (cmds : List String),
       isTruthyList (resolveStep1 m r b) = false → lookupA m "*" = some dc →
       lookupA dc b = some cmds → resolveRepoCommands m r b = some cmds) ∧
    (∀ (m : ExecutionMap) (r b : String) (dc : List (String × List String))
       (cmds : List String),
       isTruthyList (resolveStep1 m r b) = false → lookupA m "*" = some dc →
       lookupA dc b = none → lookupA dc "*" = some cmds →
       resolveRepoCommands m r b = some cmds) ∧
    resolveRepoCommands exMapSpec "org/repo" "main" = some ["a"] ∧
    resolveRepoCommands exMapSpec "org/repo" "dev" = some ["b"] ∧
    resolveRepoCommands exMapSpec "other/repo" "dev" = some ["b"] := by
  refine ⟨?_, ?_, ?_, ?_, by decide, by decide, by decide⟩
  · intro m r b rc cmds h1 h2 h3
    have hs : resolveStep1 m r b = some cmds := by simp [resolveStep1, h1, h2]
    unfold resolveRepoCommands
    rw [hs]
    simp [isTruthyList, h3]
  · intro m r b rc cmds h1 h2 h3 h4
    have hs : resolveStep1 m r b = some cmds := by simp [resolveStep1, h1, h2, h3]
    unfold resolveRepoCommands
    rw [hs]
    simp [isTruthyList, h4]
  · intro m r b dc cmds h1 h2 h3
    simp only [resolveRepoCommands]
    rw [h1, h2]
    simp [h3]
  · intro m r b dc cmds h1 h2 h3 h4
    simp only [resolveRepoCommands]
    rw [h1, h2]
    simp [h3, h4]

/-- C4 witness: the exact-entry rule applied at a concrete nonempty entry. -/
theorem resolution_precedence_amended_witness :
    resolveRepoCommands [("x", [("y", ["z"])])] "x" "y" = some ["z"] :=
  resolution_precedence_amended.1 [("x", [("y", ["z"])])] "x" "y" [("y", ["z"])] ["z"]
    (by decide) (by decide) (by decide)

/-- C5 counterexample: with an empty exact entry for (acme/api, dev) and a
global wildcard, the resolver result is the wildcard's command list and one
command definition resolves — not "no commands" — so the empty first match is
not final. -/
theorem empty_match_final_counterexample :
    (lookupA exMapEmptyDev "acme/api").bind (fun rc => lookupA rc "dev") = some [] ∧
    resolveRepoCommands exMapEmptyDev "acme/api" "dev" = some ["x"] ∧
    commandsToExecute ⟨exMapEmptyDev, defsX, []⟩ "acme/api" "dev" =
      [⟨some "x", some "restart", some "systemctl restart app", none, none⟩] := by
  decide

/-- C5 amended: an empty first match is final only outside the fallback path:
a repository-level empty match with no top-level wildcard, or an empty list
selected at the wildcard level, resolves to no commands (and no error); but a
repository-level empty match is skipped in favour of a present top-level
wildcard's entries. -/
theorem empty_match_fallthrough :
    (∀ (m : ExecutionMap) (r b : String) (rc : List (String × List String)),
       lookupA m r = some rc → lookupA rc b = some [] → lookupA m "*" = none →
       resolveRepoCommands m r b = some [] ∧
       ∀ (defs : List (String × CommandConfig)) (legacy : List CommandConfig),
         commandsToExecute ⟨m, defs, legacy⟩ r b = []) ∧
    (∀ (m : ExecutionMap) (r b : String) (rc dc : List (String × List String))
       (cmds : List String),
       lookupA m r = some rc → lookupA rc b = some [] → lookupA m "*" = some dc →
       lookupA dc b = some cmds → resolveRepoCommands m r b = some cmds) ∧
    (∀ (m : ExecutionMap) (r b : String) (dc : List (String × List String)),
       isTruthyList (resolveStep1 m r b) = false → lookupA m "*" = some dc →
       lookupA dc b = some [] →
       ∀ (defs : List (String × CommandConfig)) (legacy : List CommandConfig),
         commandsToExecute ⟨m, defs, legacy⟩ r b = []) := by
  refine ⟨?_, ?_, ?_⟩
  · intro m r b rc h1 h2 h3
    have hs : resolveStep1 m r b = some [] := by simp [resolveStep1, h1, h2]
    have hres : resolveRepoCommands m r b = some [] := by
      simp only [resolveRepoCommands]
      rw [hs, h3]
      simp [isTruthyList]
    refine ⟨hres, ?_⟩
    intro defs legacy
    simp [commandsToExecute, lookupA_isEmpty_false m r rc h1, hres, isTruthyList]
  · intro m r b rc dc cmds h1 h2 h3 h4
    have hs : resolveStep1 m r b = some [] := by simp [resolveStep1, h1, h2]
    simp only [resolveRepoCommands]
    rw [hs, h3]
    simp [isTruthyList, h4]
  · intro m r b dc h1 h2 h3
    have hres : resolveRepoCommands m r b = some [] := by
      simp only [resolveRepoCommands]
      rw [h1, h2]
      simp [h3]
    intro defs legacy
    simp [commandsToExecute, lookupA_isEmpty_false m "*" dc h2, hres, isTruthyList]

/-- C5 witness: a concrete repository-level empty match with a wildcard
present resolves to the wildcard's list. -/
theorem empty_match_fallthrough_witness :
    resolveRepoCommands [("p", [("q", [])]), ("*", [("q", ["w"])])] "p" "q" = some ["w"] :=
  empty_match_fallthrough.2.1 [("p", [("q", [])]), ("*", [("q", ["w"])])] "p" "q"
    [("q", [])] [("q", ["w"])] ["w"] (by decide) (by decide) (by decide) (by decide)

/-- C3 witness: the characterization applied at a concrete run on an allowed
branch concludes concrete membership. -/
theorem freshness_filter_spec_witness :
    runSuccessAt (some 0) ∈
      getNewSuccessfulRuns "r" wfSample [runSuccessAt (some 0)] 100 [] ["main"] :=
  (freshness_filter_spec.1 "r" wfSample [runSuccessAt (some 0)] 100 [] ["main"]
      (runSuccessAt (some 0))).mpr
    ⟨List.mem_singleton.mpr rfl, rfl, by decide,
     Or.inr ⟨"main", rfl, List.mem_singleton.mpr rfl⟩,
     fun t ht => by
       have : (0 : Int) = t := Option.some.inj ht
       omega⟩

/-- C6 counterexample: the permission-denied, not-found and unexpected
branches all return the same value None, so the returned value does not
classify which of the six outcome classes occurred. -/
theorem runner_classification_counterexample :
    executeSingleCommand ExecBehavior.permissionError 120 = none ∧
    executeSingleCommand ExecBehavior.fileNotFoundError 120 = none ∧
    executeSingleCommand ExecBehavior.unexpectedError 120 = none ∧
    executeSingleCommand ExecBehavior.permissionError 120 =
      executeSingleCommand ExecBehavior.fileNotFoundError 120 := by
  decide

/-- C6 amended: the runner never raises — every handled behavior returns a
value to the caller: a completed command returns its CompletedProcess (whose
returncode distinguishes success from non-zero exit), a timeout returns the
ad hoc TimeoutResult with returncode -1 carrying the partial stdout and a
timeout message, and the permission-denied, not-found and unexpected branches
all return None, without distinguishing classification. -/
theorem runner_no_raise_amended (b : ExecBehavior) (timeout : Int) :
    (∀ (rc : Int) (out err : String), b = .completed rc out err →
       executeSingleCommand b timeout = some (.proc rc out err)) ∧
    (∀ pout perr : Option String, b = .timedOut pout perr →
       executeSingleCommand b timeout =
         some (.timeoutResult (-1) (pout.getD "")
           ("Command timed out after " ++ toString timeout ++ " seconds"))) ∧
    ((b = .permissionError ∨ b = .fileNotFoundError ∨ b = .unexpectedError) →
       executeSingleCommand b timeout = none) := by
  refine ⟨?_, ?_, ?_⟩
  · intro rc out err h
    subst h
    rfl
  · intro pout perr h
    subst h
    rfl
  · rintro (h | h | h) <;> subst h <;> rfl

/-- C6 witness: the completed branch applied at a concrete command result. -/
theorem runner_no_raise_amended_witness :
    executeSingleCommand (ExecBehavior.completed 0 "ok" "") 120 =
      some (CmdResult.proc 0 "ok" "") :=
  (runner_no_raise_amended (ExecBehavior.completed 0 "ok" "") 120).1 0 "ok" "" rfl

/-- C7 counterexample: a key with fewer than three colon-separated parts is
unparseable as repo:workflow:run, yet the retention pass retains it instead
of evicting it — the length guard skips it without raising. -/
theorem retention_unparseable_retained_counterexample :
    cleanupOldExecutedRuns [] (fun _ _ => none) 0 ["badkey"] = ["badkey"] ∧
    cleanupOldExecutedRuns ["a"] srcAllEpoch 999999999 ["a:b"] = ["a:b"] := by
  decide

/-- C7 amended: for a key in the executed set splitting into at least three
parts: with both id parts parsing as integers and the repository connected,
the pass retains the key iff the re-queried age is at most 604800 seconds
(a run without a timestamp is retained; a run that can no longer be fetched
is evicted); a key whose id parts fail integer parsing is evicted; a key
with fewer than three parts is retained rather than evicted. -/
theorem retention_postcondition_amended :
    (∀ (repos : List String) (source : String → Int → Option RunInfo) (now : Int)
       (executed : List String) (key repoName wfS runS : String) (rest : List String),
       key ∈ executed →
       pySplit ':' key = repoName :: wfS :: runS :: rest →
       (∀ (w rid : Int) (info : RunInfo),
          pyToInt? wfS = some w → pyToInt? runS = some rid → repoName ∈ repos →
          source repoName rid = some info →
          ((∀ t : Int, info.updatedAt = some t →
              (key ∈ cleanupOldExecutedRuns repos source now executed ↔
                 now - t ≤ 604800)) ∧
           (info.updatedAt = none →
              key ∈ cleanupOldExecutedRuns repos source now executed))) ∧
       (∀ w rid : Int,
          pyToInt? wfS = some w → pyToInt? runS = some rid → repoName ∈ repos →
          source repoName rid = none →
          key ∉ cleanupOldExecutedRuns repos source now executed) ∧
       ((pyToInt? wfS = none ∨ pyToInt? runS = none) →
          key ∉ cleanupOldExecutedRuns repos source now executed)) ∧
    (∀ (repos : List String) (source : String → Int → Option RunInfo) (now : Int)
       (executed : List String) (key : String),
       key ∈ executed → (pySplit ':' key).length < 3 →
       key ∈ cleanupOldExecutedRuns repos source now executed) := by
  constructor
  · intro repos source now executed key repoName wfS runS rest hmem hsplit
    have hparsed := keyShouldRemove_parsed repos source now key repoName wfS runS rest hsplit
    refine ⟨?_, ?_, ?_⟩
    · intro w rid info hw hr hrepo hsrc
      have helem : repos.elem repoName = true := List.elem_iff.mpr hrepo
      constructor
      · intro t ht
        rw [mem_cleanup_iff, hparsed]
        rw [hw, hr]
        simp [helem, hsrc, ht, hmem, hrepo]
      · intro ht
        rw [mem_cleanup_iff, hparsed]
        rw [hw, hr]
        simp [helem, hsrc, ht, hmem, hrepo]
    · intro w rid hw hr hrepo hsrc
      have helem : repos.elem repoName = true := List.elem_iff.mpr hrepo
      rw [mem_cleanup_iff, hparsed]
      rw [hw, hr]
      simp [helem, hsrc, hrepo]
    · intro hbad
      rw [mem_cleanup_iff, hparsed]
      rcases hbad with hbad | hbad
      · simp [hbad]
      · rw [hbad]
        rcases h : pyToInt? wfS with _ | w <;> simp
  · intro repos source now executed key hmem hlen
    rw [mem_cleanup_iff]
    refine ⟨hmem, ?_⟩
    unfold keyShouldRemove
    have : ¬((pySplit ':' key).length ≥ 3) := by omega
    simp [this]

/-- C7 witness: a six-day-old concrete key is retained and an eight-day-old
one is evicted by the pass. -/
theorem retention_postcondition_amended_witness :
    "acme/api:7:42" ∈
      cleanupOldExecutedRuns ["acme/api"] srcAllEpoch 518400 ["acme/api:7:42"] ∧
    "acme/api:7:42" ∉
      cleanupOldExecutedRuns ["acme/api"] srcAllEpoch 691200 ["acme/api:7:42"] := by
  constructor
  · exact (((retention_postcondition_amended.1 ["acme/api"] srcAllEpoch 518400
      ["acme/api:7:42"] "acme/api:7:42" "acme/api" "7" "42" []
      (by decide) (by decide)).1 7 42 ⟨some 0⟩
      (by decide) (by decide) (by decide) rfl).1 0 rfl).mpr (by decide)
  · intro hin
    have h := (((retention_postcondition_amended.1 ["acme/api"] srcAllEpoch 691200
      ["acme/api:7:42"] "acme/api:7:42" "acme/api" "7" "42" []
      (by decide) (by decide)).1 7 42 ⟨some 0⟩
      (by decide) (by decide) (by decide) rfl).1 0 rfl).mp hin
    revert h
    decide

/-- C8: persistence round trip — saving the dedup state (the executed set
serialized as an array) and loading it back yields an executed set with the
same elements and the same last_checked map, and re-saving the unchanged
state yields the identical output (saving is a pure function of the state). -/
theorem persistence_round_trip (s : DedupState) :
    (loadState (saveState s)).executedRuns.toFinset = s.executedRuns.toFinset ∧
    (loadState (saveState s)).lastCheckedRuns = s.lastCheckedRuns ∧
    saveState s = saveState s := by
  refine ⟨?_, rfl, rfl⟩
  ext a
  simp [loadState, saveState, List.mem_toFinset, List.mem_dedup]

/-- C9: the effective timeout is the explicit per-command override when
present, else derived from the command text by category, checked in order:
HTTP-tool keywords give 60 seconds, kubectl 120, version-control keywords
180, container-tool keywords 300, and everything else 120. -/
theorem timeout_derivation :
    (∀ (cmd : CommandConfig) (t : Int), cmd.timeout = some t →
       effectiveTimeout cmd = t) ∧
    (∀ cmd : CommandConfig, cmd.timeout = none →
       effectiveTimeout cmd = getDefaultTimeout (cmd.command.getD "")) ∧
    (∀ c : String, hasAnyKeyword c ["curl", "wget", "http"] = true →
       getDefaultTimeout c = 60) ∧
    (∀ c : String, hasAnyKeyword c ["curl", "wget", "http"] = false →
       hasAnyKeyword c ["kubectl"] = true → getDefaultTimeout c = 120) ∧
    (∀ c : String, hasAnyKeyword c ["curl", "wget", "http"] = false →
       hasAnyKeyword c ["kubectl"] = false →
       hasAnyKeyword c ["git", "clone", "pull", "push"] = true →
       getDefaultTimeout c = 180) ∧
    (∀ c : String, hasAnyKeyword c ["curl", "wget", "http"] = false →
       hasAnyKeyword c ["kubectl"] = false →
       hasAnyKeyword c ["git", "clone", "pull", "push"] = false →
       hasAnyKeyword c ["docker", "podman"] = true → getDefaultTimeout c = 300) ∧
    (∀ c : String, hasAnyKeyword c ["curl", "wget", "http"] = false →
       hasAnyKeyword c ["kubectl"] = false →
       hasAnyKeyword c ["git", "clone", "pull", "push"] = false →
       hasAnyKeyword c ["docker", "podman"] = false → getDefaultTimeout c = 120) ∧
    getDefaultTimeout "curl -X POST https://example.com/hook" = 60 ∧
    getDefaultTimeout "kubectl rollout restart deployment/app" = 120 ∧
    getDefaultTimeout "git fetch --all" = 180 ∧
    getDefaultTimeout "docker compose restart" = 300 ∧
    getDefaultTimeout "systemctl restart app" = 120 := by
  refine ⟨?_, ?_, ?_, ?_, ?_, ?_, ?_, by decide, by decide, by decide, by decide, by decide⟩
  · intro cmd t h
    simp [effectiveTimeout, h]
  · intro cmd h
    simp [effectiveTimeout, h]
  · intro c h
    simp only [hasAnyKeyword, List.any_cons, List.any_nil, Bool.or_false,
      Bool.or_eq_true] at h
    unfold getDefaultTimeout
    rcases h with h | h | h <;> simp [h]
  · intro c h1 h2
    simp only [hasAnyKeyword, List.any_cons, List.any_nil, Bool.or_false,
      Bool.or_eq_false_iff] at h1
    simp only [hasAnyKeyword, List.any_cons, List.any_nil, Bool.or_false] at h2
    unfold getDefaultTimeout
    simp [h1.1, h1.2.1, h1.2.2, h2]
  · intro c h1 h2 h3
    simp only [hasAnyKeyword, List.any_cons, List.any_nil, Bool.or_false,
      Bool.or_eq_false_iff] at h1
    simp only [hasAnyKeyword, List.any_cons, List.any_nil, Bool.or_false] at h2
    simp only [hasAnyKeyword, List.any_cons, List.any_nil, Bool.or_false,
      Bool.or_eq_true] at h3
    unfold getDefaultTimeout
    rcases h3 with h | h | h | h <;> simp [h1.1, h1.2.1, h1.2.2, h2, h]
  · intro c h1 h2 h3 h4
    simp only [hasAnyKeyword, List.any_cons, List.any_nil, Bool.or_false,
      Bool.or_eq_false_iff] at h1 h3
    simp only [hasAnyKeyword, List.any_cons, List.any_nil, Bool.or_false] at h2
    simp only [hasAnyKeyword, List.any_cons, List.any_nil, Bool.or_false,
      Bool.or_eq_true] at h4
    unfold getDefaultTimeout
    rcases h4 with h | h <;>
      simp [h1.1, h1.2.1, h1.2.2, h2, h3.1, h3.2.1, h3.2.2.1, h3.2.2.2, h]
  · intro c h1 h2 h3 h4
    simp only [hasAnyKeyword, List.any_cons, List.any_nil, Bool.or_false,
      Bool.or_eq_false_iff] at h1 h3 h4
    simp only [hasAnyKeyword, List.any_cons, List.any_nil, Bool.or_false] at h2
    unfold getDefaultTimeout
    simp [h1.1, h1.2.1, h1.2.2, h2, h3.1, h3.2.1, h3.2.2.1, h3.2.2.2, h4.1, h4.2]

/-- C9 witness: the override rule applied at a concrete command with an
explicit timeout. -/
theorem timeout_derivation_witness :
    effectiveTimeout ⟨none, none, some "sleep 600", none, some 42⟩ = 42 :=
  timeout_derivation.1 ⟨none, none, some "sleep 600", none, some 42⟩ 42 rfl

/-- C10: retention gap — a key whose parts parse but whose repository is not
among the connected repositories is never evicted by the retention pass,
whatever the run source reports and however old the run is. -/
theorem retention_gap_unconfigured (repos : List String)
    (source : String → Int → Option RunInfo) (now : Int) (executed : List String)
    (key repoName wfS runS : String) (rest : List String) (w rid : Int)
    (hmem : key ∈ executed)
    (hsplit : pySplit ':' key = repoName :: wfS :: runS :: rest)
    (hw : pyToInt? wfS = some w) (hr : pyToInt? runS = some rid)
    (hrepo : repoName ∉ repos) :
    key ∈ cleanupOldExecutedRuns repos source now executed := by
  rw [mem_cleanup_iff]
  refine ⟨hmem, ?_⟩
  rw [keyShouldRemove_parsed repos source now key repoName wfS runS rest hsplit]
  have helem : repos.elem repoName = false := by
    cases h : repos.elem repoName with
    | false => rfl
    | true => exact absurd (List.elem_iff.mp h) hrepo
  rw [hw, hr]
  simp [helem, hrepo]

/-- C10 witness: an ancient key of an unconnected repository survives a
concrete retention pass. -/
theorem retention_gap_unconfigured_witness :
    "ghost/repo:1:2" ∈
      cleanupOldExecutedRuns ["acme/api"] srcAllEpoch 999999999 ["ghost/repo:1:2"] :=
  retention_gap_unconfigured ["acme/api"] srcAllEpoch 999999999 ["ghost/repo:1:2"]
    "ghost/repo:1:2" "ghost/repo" "1" "2" [] 1 2
    (by decide) (by decide) (by decide) (by decide) (by decide)

end GhaMonitor
